import Mathlib

/-!
Shallow embedding of the cpass tree-list browser (src/cpass.py).

The embedding follows the source classes:
* `PassNode` — one entry of a directory listing (`PassNode.__init__`):
  `node` is the entry name (`none` models Python `None`, the empty
  sentinel), `isdir` the directory flag.  The purely presentational
  fields (`text`, `icon`, `count`, the urwid widget tree) are not
  modelled.
* `FolderWalker` — the cached, ordered collection of one directory,
  with its remembered cursor `pos` (`FolderWalker.__init__`,
  `FolderWalker.insert_sorted`).  Python `sorted` is a stable sort,
  and a stable sort's output is uniquely determined by the comparison
  key and the input order, so it is embedded as the (equally stable,
  structurally recursive, hence kernel-evaluable) `List.insertionSort`;
  Python `list.insert(pos, x)` is embedded as `pyInsert` (take/drop,
  which clamps the index exactly like Python's insert).
* `PassList` — the listbox operations `insert`, `delete`,
  `list_navigate`, `dir_navigate`.  Viewport arithmetic is embedded
  over `Int` (Python ints).  Filesystem paths, which the source keeps
  as normalized slash-separated strings manipulated only through
  `os.path.join(root, name)` and `os.path.dirname`, are embedded as
  their component lists (`List String`): `join root name` appends the
  single component `name`, `dirname` drops the last component, which
  is exactly the behaviour of the `os.path` functions on the
  normalized relative paths and slash-free component names produced
  by `Pass.extract_all`.
* `UI` — the modal input state machine (`focus_edit`, `unfocus_edit`,
  `handle_input`), the mutation coordinator (`run_pass`,
  `delete_confirm`) and the footer counter (`update_view`).  The
  external `pass` subprocess results are inputs (`PassResult`), and
  the calls made to the external store are logged in a trace.
-/

/-- One entry of a directory listing (class `PassNode`).  `node = none`
models `PassNode(None, ...)`, the "-- EMPTY --" sentinel. -/
structure PassNode where
  node : Option String
  isdir : Bool
deriving DecidableEq, Repr

/-- The value `PassNode(None, None)` — the empty sentinel (`isdir` defaults to `False`). -/
def emptyNode : PassNode := ⟨none, false⟩

/-- Lexicographic comparison on code-point sequences: the order Python
uses to compare strings. -/
def charsLe : List Nat → List Nat → Bool
  | [], _ => true
  | _ :: _, [] => false
  | a :: as, b :: bs => if a < b then true else if b < a then false else charsLe as bs

/-- Python string `<=`: lexicographic on Unicode code points. -/
def pyStrLe (a b : String) : Bool :=
  charsLe (a.data.map Char.toNat) (b.data.map Char.toNat)

/-- Python string `<=` as a relation, for `sorted(dirs)` / `sorted(files)`. -/
def strRel (a b : String) : Prop := pyStrLe a b = true

instance : DecidableRel strRel := fun a b =>
  inferInstanceAs (Decidable (pyStrLe a b = true))

/-- Sort key comparison on the optional `node` field, totalised at the
sentinel (`none`); the source never sorts a list containing the
sentinel, so only the `some`/`some` case is ever exercised. -/
def optLe : Option String → Option String → Bool
  | none, _ => true
  | some _, none => false
  | some a, some b => pyStrLe a b

/-- The comparison of `sorted(..., key=lambda n: n.node)`. -/
def nodeRel (a b : PassNode) : Prop := optLe a.node b.node = true

instance : DecidableRel nodeRel := fun a b =>
  inferInstanceAs (Decidable (optLe a.node b.node = true))

/-- Python `list.insert(i, a)`: inserts before index `i`, clamping `i`
to the list length. -/
def pyInsert (l : List α) (i : Nat) (a : α) : List α :=
  l.take i ++ a :: l.drop i

/-- The cached collection of one directory (class `FolderWalker`):
cursor position `pos` and the ordered node list. -/
structure FolderWalker where
  pos : Nat
  nodes : List PassNode
deriving DecidableEq, Repr

/-- Embeds `FolderWalker.__init__(root, dirs, files)`: sorted directories, then
sorted files; a single sentinel if both lists are empty. -/
def FolderWalker.init (dirs files : List String) : FolderWalker :=
  let ns := (dirs.insertionSort strRel).map (fun d => PassNode.mk (some d) true) ++
            (files.insertionSort strRel).map (fun f => PassNode.mk (some f) false)
  { pos := 0, nodes := if ns.length = 0 then [emptyNode] else ns }

/-- Embeds `FolderWalker.insert_sorted(node)`: if the name already exists,
return its index and change nothing; otherwise insert at the cursor
and re-sort, directories (sorted by name) before files (sorted by
name), returning the inserted node's index. -/
def FolderWalker.insert_sorted (fw : FolderWalker) (n : PassNode) :
    FolderWalker × Nat :=
  let node_list := fw.nodes.map (·.node)
  if n.node ∈ node_list then
    (fw, node_list.indexOf n.node)
  else
    let inserted := pyInsert fw.nodes fw.pos n
    let sortednodes :=
      (inserted.filter (fun m => m.isdir)).insertionSort nodeRel ++
      (inserted.filter (fun m => !m.isdir)).insertionSort nodeRel
    ({ fw with nodes := sortednodes }, sortednodes.indexOf n)

/-- The store mutation of `PassList.insert(node)`: drop the sentinel
when it is the whole collection, then `insert_sorted` a new file node;
returns the updated walker and the inserted position. -/
def PassList.insertStore (fw : FolderWalker) (name : String) :
    FolderWalker × Nat :=
  let fw' := if fw.nodes.length = 1 ∧ (fw.nodes.headD emptyNode).node = none
             then { fw with nodes := fw.nodes.dropLast } else fw
  fw'.insert_sorted ⟨some name, false⟩

/-- The store mutation of `PassList.delete(pos)`: `pop(pos)`, then
re-insert the sentinel if the collection became empty. -/
def PassList.deleteStore (fw : FolderWalker) (pos : Nat) : FolderWalker :=
  let ns := fw.nodes.eraseIdx pos
  { fw with nodes := if ns.length = 0 then [emptyNode] else ns }

/-! ### Viewport arithmetic (`PassList.list_navigate`) -/

/-- The viewport state of the listbox: `focus_position` indexes the
displayed collection, `offset_inset` is the row of the visible window
at which the focused item is rendered.  Python ints, so `Int`. -/
structure Viewport where
  focus_position : Int
  offset_inset : Int
deriving DecidableEq, Repr

/-- Embeds `PassList.list_navigate(size, shift, new_focus)`: either a relative
`shift` or an absolute `new_focus` target; both focus and offset are
border-checked with `min(max(x, 0), bound - 1)` before being
committed.  `bodyLen` is `len(self.body)`, `h` is `size[1]`. -/
def list_navigate (bodyLen h : Int) (vp : Viewport) (shift : Int)
    (new_focus : Option Int) : Viewport :=
  let offset := vp.offset_inset
  let nf := match new_focus with
    | none => vp.focus_position + shift
    | some t => t
  let sh := match new_focus with
    | none => shift
    | some t => t - vp.focus_position
  let new_offset := offset + sh
  { focus_position := min (max nf 0) (bodyLen - 1)
    offset_inset := min (max new_offset 0) (h - 1) }

/-- One `list_navigate` call: a relative shift or an absolute target. -/
inductive NavCmd
  | rel (shift : Int)
  | abs (target : Int)
deriving DecidableEq, Repr

/-- A sequence of `list_navigate` calls on a fixed collection/window. -/
def navigateSeq (bodyLen h : Int) (vp : Viewport) : List NavCmd → Viewport
  | [] => vp
  | c :: cs =>
    let vp' := match c with
      | .rel s => list_navigate bodyLen h vp s none
      | .abs t => list_navigate bodyLen h vp 0 (some t)
    navigateSeq bodyLen h vp' cs

/-! ### Directory navigation (`PassList.dir_navigate`)

Paths are embedded as their component lists: `os.path.join(root, name)`
appends the component `name` and `os.path.dirname(root)` drops the last
component, which is their behaviour on the normalized relative paths
and slash-free component names produced by `Pass.extract_all`. -/

inductive NavDir
  | down
  | up
deriving DecidableEq, Repr

/-- The navigator state: the current root path, `Pass.all_pass` (total:
the startup walk has an entry for every reachable directory), and the
listbox focus.  The displayed body is always `all_pass[root]`, see
`NavState.body`. -/
structure NavState where
  root : List String
  allPass : List String → FolderWalker
  focus_position : Nat

/-- The displayed collection (`self.body[:] = Pass.all_pass[self.root]`
keeps the body identical to the cache entry). -/
def NavState.body (st : NavState) : List PassNode :=
  (st.allPass st.root).nodes

/-- The assignment `Pass.all_pass[p].pos = pos` — record a cursor into the cache. -/
def updatePos (ap : List String → FolderWalker) (p : List String) (pos : Nat) :
    List String → FolderWalker :=
  fun q => if q = p then { ap p with pos := pos } else ap q

/-- Embeds `PassList.dir_navigate(direction)`: persist the cursor of the
current root, move the root (descend only when the focused node is a
directory), swap the body, restore the new root's remembered cursor. -/
def dir_navigate (st : NavState) (d : NavDir) : NavState :=
  let ap := updatePos st.allPass st.root st.focus_position
  let fcs := st.body.getD st.focus_position emptyNode
  let root' := match d with
    | .down => if fcs.isdir then st.root ++ [fcs.node.getD ""] else st.root
    | .up => st.root.dropLast
  { root := root', allPass := ap, focus_position := (ap root').pos }

/-! ### UI: modal state machine, mutation coordinator, footer counter

The external `pass` subprocess is out of scope: each embedded operation
takes the subprocess outcome (`PassResult`) as an input and logs the
call it would make in `calls`, so theorems can quantify over outcomes
and count invocations. -/

/-- The `self._edit_type` values (strings in the source). -/
inductive EditType
  | search
  | insertName
  | insertPassword
  | insertPasswordConfirm
  | generate
  | delete
deriving DecidableEq, Repr

/-- Outcome of one external `pass` call (`subprocess.run` result). -/
structure PassResult where
  returncode : Int
  stdout : String
  stderr : String
deriving DecidableEq, Repr

/-- Which external operation was invoked. -/
inductive PassOp
  | show
  | edit
  | insert
  | generate
  | delete
deriving DecidableEq, Repr

/-- One logged invocation of the external store: the operation, the
name it was invoked for, and the password argument when present. -/
structure CoordCall where
  op : PassOp
  name : String
  password : Option String
deriving DecidableEq, Repr

/-- The UI state.  `insertNode`/`insertPass`/`insertPassAgain` model the
`self._insert_node`/`self._insert_pass`/`self._insert_pass_again`
attributes (`none` = attribute never assigned); `previewForced` records
that `update_preview(force=True)` has been invoked; `calls` is the
trace of external-store invocations. -/
structure UIState where
  root : List String
  allPass : List String → FolderWalker
  focus_position : Nat
  offset_inset : Int
  message : String
  alert : Bool
  countText : String
  editType : Option EditType
  editText : String
  editCaption : String
  editMask : Option Char
  insertNode : Option String
  insertPass : Option String
  insertPassAgain : Option String
  previewForced : Bool
  calls : List CoordCall

/-- Python truthiness of the optional `node` field: `None` and the
empty string are falsy. -/
def pyTruthy : Option String → Bool
  | none => false
  | some s => decide (s ≠ "")

/-- Renders `os.path.join` over the components of a normalized relative path. -/
def renderPath (p : List String) : String :=
  String.intercalate "/" p

/-- Embeds `message.replace('\n', ' ')`: the pattern is the single newline
character, so the replacement is a per-character map. -/
def flattenNL (s : String) : String :=
  String.mk (s.data.map (fun c => if c = '\n' then ' ' else c))

/-- Embeds `UI.message(message, alert)`: one-line status text (newlines
replaced by spaces) with the alert/normal attribute. -/
def UI.message (st : UIState) (m : String) (alrt : Bool) : UIState :=
  { st with message := flattenNL m, alert := alrt }

/-- Embeds `UI.unfocus_edit`: leave the modal session — reset the edit type,
restore the footer, clear the message box and the input mask.  (The
`_insert_*` attributes are not touched.) -/
def UI.unfocus_edit (st : UIState) : UIState :=
  { st with editType := none, message := "", alert := false, editMask := none }

/-- Embeds `UI.focus_edit(edit_type, cap, mask)`: enter a modal input step with
a fresh (empty) edit text. -/
def UI.focus_edit (st : UIState) (et : EditType) (cap : String)
    (mask : Option Char) : UIState :=
  { st with editType := some et, editCaption := cap, editMask := mask, editText := "" }

/-- Embeds `UI.update_view`: refresh the footer item counter: `"pos+1/len"`
when the focused node's name is truthy, else `"0/0"`. -/
def UI.update_view (st : UIState) : UIState :=
  let fcs := (st.allPass st.root).nodes.getD st.focus_position emptyNode
  { st with countText :=
      if pyTruthy fcs.node then
        toString (st.focus_position + 1) ++ "/" ++
          toString (st.allPass st.root).nodes.length
      else "0/0" }

/-- Embeds `PassList.insert(node)` at the UI level: patch the cache entry of
the current root, focus the inserted position, refresh the view. -/
def PassList.insertUI (st : UIState) (name : String) : UIState :=
  let res := PassList.insertStore (st.allPass st.root) name
  UI.update_view
    { st with
      allPass := fun q => if q = st.root then res.1 else st.allPass q
      focus_position := res.2 }

/-- Embeds `PassList.delete(pos)` at the UI level: patch the cache entry of
the current root, refresh the view. -/
def PassList.deleteUI (st : UIState) (pos : Nat) : UIState :=
  let fw := PassList.deleteStore (st.allPass st.root) pos
  UI.update_view
    { st with allPass := fun q => if q = st.root then fw else st.allPass q }

/-- Embeds `UI.run_pass(func, node, root, msg, args)`: invoke the external
store (logged in `calls`; its outcome is the input `res`); on success
show `msg`, sorted-insert `node` at the current root and force a
preview refresh; on failure show the error text as an alert and touch
nothing else.  `msg` is the already-formatted success message. -/
def UI.run_pass (st : UIState) (op : PassOp) (node : String) (msg : String)
    (password : Option String) (res : PassResult) : UIState :=
  let st := { st with calls := st.calls ++ [⟨op, node, password⟩] }
  if res.returncode = 0 then
    let st := UI.message st msg false
    let st := PassList.insertUI st node
    { st with previewForced := true }
  else
    UI.message st res.stderr true

/-- Embeds `UI.delete_confirm(key)`: the delete-confirmation step; on `y`/`Y`/
`enter` invoke the external delete (outcome `res`) and on its success
remove the focused node and force a preview refresh; on failure alert
with the error text; `n`/`N` aborts; anything else is invalid. -/
def UI.delete_confirm (st : UIState) (key : String) (res : PassResult) : UIState :=
  if key = "y" ∨ key = "Y" ∨ key = "enter" then
    let fcs := (st.allPass st.root).nodes.getD st.focus_position emptyNode
    let path := st.root ++ [fcs.node.getD ""]
    let st := { st with calls := st.calls ++ [⟨.delete, fcs.node.getD "", none⟩] }
    if res.returncode = 0 then
      let st := UI.message st ("Deleting " ++ renderPath path) false
      let st := PassList.deleteUI st st.focus_position
      { st with previewForced := true }
    else
      UI.message st res.stderr true
  else if key = "n" ∨ key = "N" then
    UI.message st "Abort." false
  else
    UI.message st "Invalid option." true

/-- Embeds `UI.handle_input`: the confirm transition of the modal state
machine (`enter` while an edit session is active). -/
def UI.handle_input (st : UIState) (res : PassResult) : UIState :=
  match st.editType with
  | some .search => UI.unfocus_edit st
  | some .generate =>
    UI.unfocus_edit
      (UI.run_pass st .generate st.editText
        ("Generate:  " ++ renderPath st.root ++ "/" ++ st.editText) none res)
  | some .insertName =>
    UI.focus_edit { st with insertNode := some st.editText }
      .insertPassword "Enter password: " (some '*')
  | some .insertPassword =>
    UI.focus_edit { st with insertPass := some st.editText }
      .insertPasswordConfirm "Enter password again: " (some '*')
  | some .insertPasswordConfirm =>
    let st1 := { (UI.unfocus_edit st) with insertPassAgain := some st.editText }
    if st1.insertPass = st1.insertPassAgain then
      UI.run_pass st1 .insert (st1.insertNode.getD "")
        ("Insert:  " ++ renderPath st1.root ++ "/" ++ st1.insertNode.getD "")
        st1.insertPass res
    else
      UI.message st1 "Password is not the same" true
  | _ => st

/-- The `'edit'` branch of `UI.keypress`: only on a non-directory
focus, run the external edit through `run_pass`. -/
def UI.keypress_edit (st : UIState) (res : PassResult) : UIState :=
  let fcs := (st.allPass st.root).nodes.getD st.focus_position emptyNode
  if fcs.isdir then st
  else
    UI.run_pass st .edit (fcs.node.getD "")
      ("Edit: " ++ renderPath st.root ++ "/" ++ fcs.node.getD "") none res

/-- Embeds `self.editbox.set_edit_text` / delegated text editing between two
confirm presses: the operator's typed text replaces the edit text. -/
def UI.set_edit_text (st : UIState) (s : String) : UIState :=
  { st with editText := s }

/-- The full insert modal sequence: press `i` (`focus_edit "insert"`),
type the name `n` and confirm, type the password `p` and confirm, type
the confirmation `q` and confirm.  `res` is the outcome of the external
insert, should it be invoked. -/
def UI.insertSequence (st : UIState) (n p q : String) (res : PassResult) : UIState :=
  let st1 := UI.focus_edit st .insertName "Enter password filename: " none
  let st2 := UI.handle_input (UI.set_edit_text st1 n) res
  let st3 := UI.handle_input (UI.set_edit_text st2 p) res
  UI.handle_input (UI.set_edit_text st3 q) res

/-- A small concrete navigator state for witnesses: the root shows the
directories `a` and `b` with focus on `b`; every other path holds a
fresh sentinel collection. -/
def navFixture : NavState :=
  { root := []
    allPass := fun p =>
      if p = [] then
        FolderWalker.mk 1 [PassNode.mk (some "a") true, PassNode.mk (some "b") true]
      else FolderWalker.mk 0 [emptyNode]
    focus_position := 1 }

/-- A small concrete UI state for witnesses: the root collection is
`[b/ (dir), a (file)]` with focus on `b`, no modal session active. -/
def uiFixture : UIState :=
  { root := []
    allPass := fun p =>
      if p = [] then
        FolderWalker.mk 0 [PassNode.mk (some "b") true, PassNode.mk (some "a") false]
      else FolderWalker.mk 0 [emptyNode]
    focus_position := 0
    offset_inset := 0
    message := ""
    alert := false
    countText := ""
    editType := none
    editText := ""
    editCaption := ""
    editMask := none
    insertNode := none
    insertPass := none
    insertPassAgain := none
    previewForced := false
    calls := [] }

/-- The state `uiFixture` at the password-confirmation step of an insert session
(pending name `site`, pending password `xyz`, typed confirmation
`xyz`). -/
def uiFixtureConfirm : UIState :=
  { uiFixture with
    editType := some EditType.insertPasswordConfirm
    insertNode := some "site"
    insertPass := some "xyz"
    editText := "xyz" }

/-- The state `uiFixture` with an empty-named leaf focused (such a leaf is
produced by a stored file named exactly ".gpg", whose logical name
after suffix-stripping is the empty string) next to a real leaf. -/
def uiFixtureEmptyName : UIState :=
  { uiFixture with
    allPass := fun p =>
      if p = [] then
        FolderWalker.mk 0 [PassNode.mk (some "") false, PassNode.mk (some "a") false]
      else FolderWalker.mk 0 [emptyNode] }

/-- The state `uiFixture` over a sentinel-only root collection. -/
def uiFixtureSentinel : UIState :=
  { uiFixture with allPass := fun _ => FolderWalker.mk 0 [emptyNode] }

/-- The ordering the spec's sort invariant asserts between two list
positions: a directory strictly precedes any file, and inside one kind
group names are in ascending order. -/
def nodeBefore (a b : PassNode) : Prop :=
  (a.isdir = true ∧ b.isdir = false) ∨ (a.isdir = b.isdir ∧ optLe a.node b.node = true)

instance (a b : PassNode) : Decidable (nodeBefore a b) :=
  inferInstanceAs (Decidable (_ ∨ _))

instance : DecidableRel nodeBefore := fun _ _ => inferInstance

/-- The sort invariant: every earlier node is `nodeBefore` every later
one (directories first, each group sorted by name). -/
def SortInv (l : List PassNode) : Prop := l.Pairwise nodeBefore

/-- The canonical shape of every reachable directory collection: either
exactly the single sentinel, or non-empty and holding only real (named)
nodes. -/
def SentinelCanon (l : List PassNode) : Prop :=
  l = [emptyNode] ∨ (l ≠ [] ∧ ∀ m ∈ l, m.node ≠ none)

/-- The claimed non-empty invariant: never empty, and the sentinel is
present iff the collection holds no real entry. -/
def NonEmptyInv (l : List PassNode) : Prop :=
  l ≠ [] ∧ (emptyNode ∈ l ↔ ∀ m ∈ l, m.node = none)

instance (l : List PassNode) : Decidable (SortInv l) :=
  inferInstanceAs (Decidable (l.Pairwise nodeBefore))

instance (l : List PassNode) : Decidable (SentinelCanon l) :=
  inferInstanceAs (Decidable (_ ∨ _))

instance (l : List PassNode) : Decidable (NonEmptyInv l) :=
  inferInstanceAs (Decidable (_ ∧ _))

/-! ## Basic properties of the sort comparisons -/

theorem charsLe_total (a b : List Nat) : charsLe a b = true ∨ charsLe b a = true := by
  induction a generalizing b with
  | nil => exact Or.inl rfl
  | cons x xs ih =>
    cases b with
    | nil => exact Or.inr rfl
    | cons y ys =>
      simp only [charsLe]
      rcases Nat.lt_trichotomy x y with h | h | h
      · left
        simp [h]
      · subst h
        simpa [Nat.lt_irrefl] using ih ys
      · right
        simp [h]

theorem charsLe_trans (a b c : List Nat) (h1 : charsLe a b = true)
    (h2 : charsLe b c = true) : charsLe a c = true := by
  induction a generalizing b c with
  | nil => rfl
  | cons x xs ih =>
    cases b with
    | nil => simp [charsLe] at h1
    | cons y ys =>
      cases c with
      | nil => simp [charsLe] at h2
      | cons z zs =>
        simp only [charsLe] at h1 h2 ⊢
        by_cases hxy : x < y
        · by_cases hyz : y < z
          · simp [Nat.lt_trans hxy hyz]
          · by_cases hzy : z < y
            · simp [hyz, hzy] at h2
            · have : y = z := Nat.le_antisymm (Nat.le_of_not_lt hzy) (Nat.le_of_not_lt hyz)
              subst this
              simp [hxy]
        · by_cases hyx : y < x
          · simp [hxy, hyx] at h1
          · have hxy' : x = y := Nat.le_antisymm (Nat.le_of_not_lt hyx) (Nat.le_of_not_lt hxy)
            subst hxy'
            simp only [Nat.lt_irrefl, if_false, ite_self] at h1
            by_cases hxz : x < z
            · simp [hxz]
            · by_cases hzx : z < x
              · simp [hxz, hzx] at h2
              · have : x = z := Nat.le_antisymm (Nat.le_of_not_lt hzx) (Nat.le_of_not_lt hxz)
                subst this
                simp only [Nat.lt_irrefl, if_false, ite_self] at h2 ⊢
                simpa using ih ys zs (by simpa using h1) (by simpa using h2)

theorem optLe_total (a b : Option String) : optLe a b = true ∨ optLe b a = true := by
  cases a with
  | none => exact Or.inl rfl
  | some s =>
    cases b with
    | none => exact Or.inr rfl
    | some t => exact charsLe_total _ _

theorem optLe_trans (a b c : Option String) (h1 : optLe a b = true)
    (h2 : optLe b c = true) : optLe a c = true := by
  cases a with
  | none => rfl
  | some s =>
    cases b with
    | none => simp [optLe] at h1
    | some t =>
      cases c with
      | none => simp [optLe] at h2
      | some u => exact charsLe_trans _ _ _ h1 h2

instance : IsTotal String strRel :=
  ⟨fun x y => charsLe_total (x.data.map Char.toNat) (y.data.map Char.toNat)⟩

instance : IsTrans String strRel := ⟨fun _ _ _ h1 h2 => charsLe_trans _ _ _ h1 h2⟩

instance : IsTotal PassNode nodeRel := ⟨fun a b => optLe_total a.node b.node⟩

instance : IsTrans PassNode nodeRel :=
  ⟨fun _ _ _ h1 h2 => optLe_trans _ _ _ h1 h2⟩

/-! ## Sort invariant lemmas -/

/-- The directories-then-files re-sort in `insert_sorted` produces a
collection satisfying the sort invariant, whatever the input. -/
theorem sortInv_construction (l : List PassNode) :
    SortInv ((l.filter (fun m => m.isdir)).insertionSort nodeRel ++
             (l.filter (fun m => !m.isdir)).insertionSort nodeRel) := by
  unfold SortInv
  rw [List.pairwise_append]
  refine ⟨?_, ?_, ?_⟩
  · refine List.Pairwise.imp_of_mem ?_ (List.sorted_insertionSort nodeRel _)
    intro a b ha hb hr
    have ha' := (List.mem_filter.1 ((List.mem_insertionSort nodeRel).1 ha)).2
    have hb' := (List.mem_filter.1 ((List.mem_insertionSort nodeRel).1 hb)).2
    simp only at ha' hb'
    exact Or.inr ⟨by rw [ha', hb'], hr⟩
  · refine List.Pairwise.imp_of_mem ?_ (List.sorted_insertionSort nodeRel _)
    intro a b ha hb hr
    have ha' := (List.mem_filter.1 ((List.mem_insertionSort nodeRel).1 ha)).2
    have hb' := (List.mem_filter.1 ((List.mem_insertionSort nodeRel).1 hb)).2
    simp only [Bool.not_eq_true'] at ha' hb'
    exact Or.inr ⟨by rw [ha', hb'], hr⟩
  · intro a ha b hb
    have ha' := (List.mem_filter.1 ((List.mem_insertionSort nodeRel).1 ha)).2
    have hb' := (List.mem_filter.1 ((List.mem_insertionSort nodeRel).1 hb)).2
    simp only [Bool.not_eq_true'] at hb'
    simp only at ha'
    exact Or.inl ⟨ha', hb'⟩

/-- Lemma: `FolderWalker.__init__` establishes the sort invariant. -/
theorem sortInv_init (dirs files : List String) :
    SortInv (FolderWalker.init dirs files).nodes := by
  unfold FolderWalker.init SortInv
  simp only
  split
  · exact List.pairwise_singleton _ _
  · rw [List.pairwise_append]
    refine ⟨?_, ?_, ?_⟩
    · rw [List.pairwise_map]
      refine (List.sorted_insertionSort strRel dirs).imp ?_
      intro a b h
      exact Or.inr ⟨rfl, h⟩
    · rw [List.pairwise_map]
      refine (List.sorted_insertionSort strRel files).imp ?_
      intro a b h
      exact Or.inr ⟨rfl, h⟩
    · intro a ha b hb
      obtain ⟨d, _, rfl⟩ := List.mem_map.1 ha
      obtain ⟨f, _, rfl⟩ := List.mem_map.1 hb
      exact Or.inl ⟨rfl, rfl⟩

/-- Lemma: `insert_sorted` preserves the sort invariant. -/
theorem sortInv_insert_sorted (fw : FolderWalker) (n : PassNode)
    (h : SortInv fw.nodes) : SortInv (fw.insert_sorted n).1.nodes := by
  unfold FolderWalker.insert_sorted
  simp only
  split
  · exact h
  · exact sortInv_construction _

/-- Lemma: `PassList.insert`'s store mutation preserves the sort invariant. -/
theorem sortInv_insertStore (fw : FolderWalker) (name : String)
    (h : SortInv fw.nodes) : SortInv (PassList.insertStore fw name).1.nodes := by
  unfold PassList.insertStore
  simp only
  split
  · exact sortInv_insert_sorted _ _
      (List.Pairwise.sublist (List.dropLast_sublist _) h)
  · exact sortInv_insert_sorted _ _ h

/-- Lemma: `PassList.delete`'s store mutation preserves the sort invariant. -/
theorem sortInv_deleteStore (fw : FolderWalker) (pos : Nat)
    (h : SortInv fw.nodes) : SortInv (PassList.deleteStore fw pos).nodes := by
  unfold PassList.deleteStore
  simp only
  split
  · exact List.pairwise_singleton _ _
  · exact List.Pairwise.sublist (List.eraseIdx_sublist _ _) h

/-- Claim C1: for every directory's cached collection — after initial
construction (`FolderWalker.__init__`), after every sorted insert
(`insert_sorted`, also through `PassList.insert`'s store mutation) and
after every removal (`PassList.delete`'s store mutation) — all
directory-kind nodes precede all leaf-kind nodes, and within the
directory group and within the leaf group the node names are in
ascending lexical order. -/
theorem C1_sort_invariant :
    (∀ dirs files, SortInv (FolderWalker.init dirs files).nodes) ∧
    (∀ (fw : FolderWalker) (n : PassNode),
      SortInv fw.nodes → SortInv (fw.insert_sorted n).1.nodes) ∧
    (∀ (fw : FolderWalker) (name : String),
      SortInv fw.nodes → SortInv (PassList.insertStore fw name).1.nodes) ∧
    (∀ (fw : FolderWalker) (pos : Nat),
      SortInv fw.nodes → SortInv (PassList.deleteStore fw pos).nodes) :=
  ⟨sortInv_init, sortInv_insert_sorted, sortInv_insertStore, sortInv_deleteStore⟩

theorem C1_sort_invariant_witness :
    SortInv (FolderWalker.init ["b"] ["a"]).nodes ∧
    SortInv ((FolderWalker.mk 1 [PassNode.mk (some "b") true, PassNode.mk (some "a") false]).insert_sorted
      (PassNode.mk (some "c") true)).1.nodes ∧
    SortInv (PassList.insertStore
      (FolderWalker.mk 0 [PassNode.mk none false]) "x").1.nodes ∧
    SortInv (PassList.deleteStore
      (FolderWalker.mk 0 [PassNode.mk (some "b") true, PassNode.mk (some "a") false]) 0).nodes :=
  ⟨C1_sort_invariant.1 ["b"] ["a"],
   C1_sort_invariant.2.1 _ _ (by decide),
   C1_sort_invariant.2.2.1 _ "x" (by decide),
   C1_sort_invariant.2.2.2 _ 0 (by decide)⟩

/-- Python `list.index` of a member is a position inside the list. -/
theorem indexOf_lt_of_mem {α : Type _} [BEq α] [LawfulBEq α] {a : α} {l : List α}
    (h : a ∈ l) : l.indexOf a < l.length := by
  induction l with
  | nil => cases h
  | cons x xs ih =>
    rw [List.indexOf_cons]
    by_cases hx : (x == a) = true
    · simp [hx]
    · rw [Bool.not_eq_true] at hx
      rw [hx, cond_false]
      rcases List.mem_cons.1 h with rfl | hmem
      · simp at hx
      · simpa using Nat.succ_lt_succ (ih hmem)

/-- Python `list.index` of a member points back at that member. -/
theorem getElemQ_indexOf_of_mem {α : Type _} [BEq α] [LawfulBEq α] {a : α}
    {l : List α} (h : a ∈ l) : l[l.indexOf a]? = some a := by
  induction l with
  | nil => cases h
  | cons x xs ih =>
    rw [List.indexOf_cons]
    by_cases hx : (x == a) = true
    · simp [eq_of_beq hx, hx]
    · rw [Bool.not_eq_true] at hx
      rw [hx, cond_false]
      rcases List.mem_cons.1 h with rfl | hmem
      · simp at hx
      · simpa using ih hmem

/-- Claim C2: inserting a node whose name already exists returns the
index of the (first) existing node with that name and leaves the
collection — indeed the whole walker — unchanged; no error is raised
(the embedded operation is total). -/
theorem C2_insert_idempotent (fw : FolderWalker) (n : PassNode)
    (h : n.node ∈ fw.nodes.map (·.node)) :
    (fw.insert_sorted n).1 = fw ∧
    (fw.insert_sorted n).2 = (fw.nodes.map (·.node)).indexOf n.node ∧
    ∃ hlt : (fw.insert_sorted n).2 < fw.nodes.length,
      (fw.nodes.get ⟨(fw.insert_sorted n).2, hlt⟩).node = n.node := by
  have he : fw.insert_sorted n = (fw, (fw.nodes.map (·.node)).indexOf n.node) := by
    unfold FolderWalker.insert_sorted
    simp only [h, if_pos]
  have hlt' : (fw.nodes.map (·.node)).indexOf n.node < (fw.nodes.map (·.node)).length :=
    indexOf_lt_of_mem h
  have hlt : (fw.nodes.map (·.node)).indexOf n.node < fw.nodes.length := by
    simpa using hlt'
  refine ⟨by rw [he], by rw [he], ?_⟩
  rw [he]
  refine ⟨hlt, ?_⟩
  have hg := getElemQ_indexOf_of_mem h
  rw [List.getElem?_map, List.getElem?_eq_getElem hlt, Option.map_some'] at hg
  simpa [List.get_eq_getElem] using Option.some.inj hg

theorem C2_insert_idempotent_witness :
    ((FolderWalker.mk 0 [PassNode.mk (some "b") true, PassNode.mk (some "a") false]).insert_sorted
        (PassNode.mk (some "a") false)).1 =
      FolderWalker.mk 0 [PassNode.mk (some "b") true, PassNode.mk (some "a") false] ∧
    ((FolderWalker.mk 0 [PassNode.mk (some "b") true, PassNode.mk (some "a") false]).insert_sorted
        (PassNode.mk (some "a") false)).2 =
      ([PassNode.mk (some "b") true, PassNode.mk (some "a") false].map (·.node)).indexOf (some "a") ∧
    ∃ hlt : ((FolderWalker.mk 0 [PassNode.mk (some "b") true, PassNode.mk (some "a") false]).insert_sorted
        (PassNode.mk (some "a") false)).2 < 2,
      ([PassNode.mk (some "b") true, PassNode.mk (some "a") false].get
        ⟨((FolderWalker.mk 0 [PassNode.mk (some "b") true, PassNode.mk (some "a") false]).insert_sorted
          (PassNode.mk (some "a") false)).2, hlt⟩).node = some "a" :=
  C2_insert_idempotent
    (FolderWalker.mk 0 [PassNode.mk (some "b") true, PassNode.mk (some "a") false])
    (PassNode.mk (some "a") false) (by decide)

/-! ## Non-empty / sentinel invariant (C3) -/

/-- Membership in a Python `list.insert` result. -/
theorem mem_pyInsert {α : Type _} {l : List α} {i : Nat} {a m : α}
    (h : m ∈ pyInsert l i a) : m = a ∨ m ∈ l := by
  unfold pyInsert at h
  rcases List.mem_append.1 h with ht | hc
  · exact Or.inr (List.take_subset i l ht)
  · rcases List.mem_cons.1 hc with rfl | hd
    · exact Or.inl rfl
    · exact Or.inr (List.drop_subset i l hd)

/-- Lemma: `insert_sorted` of a real (named) file node into an all-real
collection yields a non-empty all-real collection. -/
theorem insert_sorted_real (fw : FolderWalker) (name : String)
    (hreal : ∀ m ∈ fw.nodes, m.node ≠ none) :
    (fw.insert_sorted (PassNode.mk (some name) false)).1.nodes ≠ [] ∧
    ∀ m ∈ (fw.insert_sorted (PassNode.mk (some name) false)).1.nodes, m.node ≠ none := by
  unfold FolderWalker.insert_sorted
  simp only
  split
  · next hmem =>
    refine ⟨?_, hreal⟩
    intro hnil
    rw [hnil] at hmem
    simp at hmem
  · next hmem =>
    constructor
    · apply List.ne_nil_of_mem (a := PassNode.mk (some name) false)
      refine List.mem_append.2 (Or.inr ?_)
      rw [List.mem_insertionSort]
      refine List.mem_filter.2 ⟨?_, rfl⟩
      unfold pyInsert
      exact List.mem_append.2 (Or.inr (List.mem_cons_self _ _))
    · intro m hm
      have hm' : m ∈ pyInsert fw.nodes fw.pos (PassNode.mk (some name) false) := by
        rcases List.mem_append.1 hm with h1 | h1
        · exact (List.mem_filter.1 ((List.mem_insertionSort nodeRel).1 h1)).1
        · exact (List.mem_filter.1 ((List.mem_insertionSort nodeRel).1 h1)).1
      rcases mem_pyInsert hm' with rfl | h2
      · simp
      · exact hreal m h2

/-- Inserting into a sentinel-only collection drops the sentinel and
leaves exactly the new node. -/
theorem insertStore_sentinel_only (fw : FolderWalker) (name : String)
    (h : fw.nodes = [emptyNode]) :
    (PassList.insertStore fw name).1.nodes = [PassNode.mk (some name) false] := by
  unfold PassList.insertStore FolderWalker.insert_sorted
  simp [h, emptyNode, pyInsert]

/-- Lemma: `FolderWalker.__init__` establishes the canonical shape. -/
theorem canon_init (dirs files : List String) :
    SentinelCanon (FolderWalker.init dirs files).nodes := by
  unfold FolderWalker.init SentinelCanon
  simp only
  split
  · exact Or.inl rfl
  · next hne =>
    refine Or.inr ⟨?_, ?_⟩
    · intro hnil
      rw [hnil] at hne
      simp at hne
    · intro m hm
      rcases List.mem_append.1 hm with hd | hf
      · obtain ⟨d, _, rfl⟩ := List.mem_map.1 hd
        simp
      · obtain ⟨f, _, rfl⟩ := List.mem_map.1 hf
        simp

/-- Lemma: `PassList.insert`'s store mutation preserves the canonical shape. -/
theorem canon_insertStore (fw : FolderWalker) (name : String)
    (h : SentinelCanon fw.nodes) :
    SentinelCanon (PassList.insertStore fw name).1.nodes := by
  rcases h with hsent | ⟨hne, hreal⟩
  · rw [insertStore_sentinel_only fw name hsent]
    exact Or.inr ⟨by simp, by simp⟩
  · unfold PassList.insertStore
    simp only
    have hcond : ¬(fw.nodes.length = 1 ∧ (fw.nodes.headD emptyNode).node = none) := by
      rintro ⟨hlen, hhead⟩
      obtain ⟨x, hx⟩ := List.length_eq_one.1 hlen
      rw [hx] at hhead
      exact hreal x (by rw [hx]; exact List.mem_cons_self _ _) hhead
    rw [if_neg hcond]
    exact Or.inr (insert_sorted_real fw name hreal)

/-- Lemma: `PassList.delete`'s store mutation preserves the canonical shape. -/
theorem canon_deleteStore (fw : FolderWalker) (pos : Nat)
    (h : SentinelCanon fw.nodes) :
    SentinelCanon (PassList.deleteStore fw pos).nodes := by
  unfold PassList.deleteStore
  simp only
  split
  · exact Or.inl rfl
  · next hne =>
    rcases h with hsent | ⟨_, hreal⟩
    · left
      rw [hsent] at hne ⊢
      cases pos with
      | zero => simp at hne
      | succ p => simp [List.eraseIdx]
    · right
      refine ⟨?_, ?_⟩
      · intro hnil
        rw [hnil] at hne
        simp at hne
      · intro m hm
        exact hreal m ((List.eraseIdx_sublist _ _).subset hm)

/-- The canonical shape implies the claimed invariant. -/
theorem canon_nonEmptyInv (l : List PassNode) (h : SentinelCanon l) :
    NonEmptyInv l := by
  rcases h with rfl | ⟨hne, hreal⟩
  · exact ⟨by simp, by simp [emptyNode]⟩
  · refine ⟨hne, ?_, ?_⟩
    · intro hmem
      exact absurd rfl (hreal emptyNode hmem)
    · intro hall
      obtain ⟨x, xs, rfl⟩ := List.exists_cons_of_ne_nil hne
      exact absurd (hall x (List.mem_cons_self _ _)) (hreal x (List.mem_cons_self _ _))

/-- Removing the only node leaves the single sentinel. -/
theorem deleteStore_last (fw : FolderWalker) (h : fw.nodes.length = 1) :
    (PassList.deleteStore fw 0).nodes = [emptyNode] := by
  obtain ⟨x, hx⟩ := List.length_eq_one.1 h
  unfold PassList.deleteStore
  simp [hx]

/-- Claim C3: every reachable directory collection (built by
`FolderWalker.__init__` and mutated by `PassList.insert` /
`PassList.delete`) keeps its canonical shape, hence is never empty and
contains the empty sentinel iff it has no real entries; a directory
built with no children gets the single sentinel, removing the last
real node re-inserts the sentinel, and inserting into a sentinel-only
collection drops the sentinel first. -/
theorem C3_nonempty_sentinel :
    (∀ dirs files, SentinelCanon (FolderWalker.init dirs files).nodes) ∧
    (∀ (fw : FolderWalker) (name : String), SentinelCanon fw.nodes →
      SentinelCanon (PassList.insertStore fw name).1.nodes) ∧
    (∀ (fw : FolderWalker) (pos : Nat), SentinelCanon fw.nodes →
      SentinelCanon (PassList.deleteStore fw pos).nodes) ∧
    (∀ l, SentinelCanon l → NonEmptyInv l) ∧
    (FolderWalker.init [] []).nodes = [emptyNode] ∧
    (∀ (fw : FolderWalker), fw.nodes.length = 1 →
      (PassList.deleteStore fw 0).nodes = [emptyNode]) ∧
    (∀ (fw : FolderWalker) (name : String), fw.nodes = [emptyNode] →
      (PassList.insertStore fw name).1.nodes = [PassNode.mk (some name) false]) :=
  ⟨canon_init, canon_insertStore, canon_deleteStore, canon_nonEmptyInv,
   by decide, deleteStore_last, insertStore_sentinel_only⟩

theorem C3_nonempty_sentinel_witness :
    SentinelCanon (PassList.insertStore (FolderWalker.mk 0 [emptyNode]) "x").1.nodes ∧
    SentinelCanon (PassList.deleteStore
      (FolderWalker.mk 0 [PassNode.mk (some "a") false]) 0).nodes ∧
    NonEmptyInv [PassNode.mk (some "a") false] ∧
    (PassList.deleteStore (FolderWalker.mk 2 [PassNode.mk (some "a") false]) 0).nodes
      = [emptyNode] ∧
    (PassList.insertStore (FolderWalker.mk 0 [emptyNode]) "x").1.nodes
      = [PassNode.mk (some "x") false] :=
  ⟨C3_nonempty_sentinel.2.1 _ "x" (by decide),
   C3_nonempty_sentinel.2.2.1 _ 0 (by decide),
   C3_nonempty_sentinel.2.2.2.1 _ (by decide),
   C3_nonempty_sentinel.2.2.2.2.2.1 _ (by decide),
   C3_nonempty_sentinel.2.2.2.2.2.2 _ "x" (by decide)⟩

/-! ## Viewport clamping (C4) -/

/-- One `list_navigate` call commits a focus in `[0, len-1]` and an
offset in `[0, h-1]`, whenever the collection is non-empty and the
window has at least one row. -/
theorem list_navigate_bounds (bodyLen h : Int) (vp : Viewport) (shift : Int)
    (nfo : Option Int) (hlen : 1 ≤ bodyLen) (hh : 1 ≤ h) :
    0 ≤ (list_navigate bodyLen h vp shift nfo).focus_position ∧
    (list_navigate bodyLen h vp shift nfo).focus_position ≤ bodyLen - 1 ∧
    0 ≤ (list_navigate bodyLen h vp shift nfo).offset_inset ∧
    (list_navigate bodyLen h vp shift nfo).offset_inset ≤ h - 1 := by
  unfold list_navigate
  refine ⟨le_min (le_max_right _ _) (by omega), min_le_right _ _,
          le_min (le_max_right _ _) (by omega), min_le_right _ _⟩

/-- Claim C4 (amended: the window height must be at least one row; for a
zero-height window the claimed interval `[0, windowHeight-1]` is empty
and the committed offset is `-1`, see the counterexample): after any
non-empty sequence of `list_navigate` calls — arbitrary relative
shifts or absolute focus targets — on a non-empty collection,
`focus_position` lies in `[0, len-1]` and `offset_inset` lies in
`[0, windowHeight-1]`. -/
theorem C4_viewport_clamped (bodyLen h : Int) (vp : Viewport) (cmds : List NavCmd)
    (hne : cmds ≠ []) (hlen : 1 ≤ bodyLen) (hh : 1 ≤ h) :
    0 ≤ (navigateSeq bodyLen h vp cmds).focus_position ∧
    (navigateSeq bodyLen h vp cmds).focus_position ≤ bodyLen - 1 ∧
    0 ≤ (navigateSeq bodyLen h vp cmds).offset_inset ∧
    (navigateSeq bodyLen h vp cmds).offset_inset ≤ h - 1 := by
  induction cmds generalizing vp with
  | nil => exact absurd rfl hne
  | cons c cs ih =>
    cases cs with
    | nil =>
      cases c with
      | rel s => exact list_navigate_bounds bodyLen h vp s none hlen hh
      | abs t => exact list_navigate_bounds bodyLen h vp 0 (some t) hlen hh
    | cons c2 cs2 => exact ih _ (List.cons_ne_nil c2 cs2)

theorem C4_viewport_clamped_witness :
    0 ≤ (navigateSeq 2 3 (Viewport.mk 0 0) [NavCmd.rel 5, NavCmd.abs (-3)]).focus_position ∧
    (navigateSeq 2 3 (Viewport.mk 0 0) [NavCmd.rel 5, NavCmd.abs (-3)]).focus_position ≤ 2 - 1 ∧
    0 ≤ (navigateSeq 2 3 (Viewport.mk 0 0) [NavCmd.rel 5, NavCmd.abs (-3)]).offset_inset ∧
    (navigateSeq 2 3 (Viewport.mk 0 0) [NavCmd.rel 5, NavCmd.abs (-3)]).offset_inset ≤ 3 - 1 :=
  C4_viewport_clamped 2 3 (Viewport.mk 0 0) [NavCmd.rel 5, NavCmd.abs (-3)]
    (by decide) (by decide) (by decide)

/-- Counterexample to C4 as frozen: it quantifies over *any* window
height; with height `0` (and a non-empty one-node collection) one
`list_navigate` call commits `offset_inset = -1`, which does not lie
in the claimed `[0, windowHeight-1]`. -/
theorem C4_counterexample :
    ¬ (0 ≤ (list_navigate 1 0 (Viewport.mk 0 0) 0 none).offset_inset ∧
       (list_navigate 1 0 (Viewport.mk 0 0) 0 none).offset_inset ≤ 0 - 1) := by
  decide

/-! ## Cursor persistence across descend/ascend (C5) -/

/-- Claim C5: when the focused node of the current directory `P` is a
directory, `dir_navigate('down')` followed by `dir_navigate('up')`
displays `P` again and restores the focus position recorded before the
descent (no mutation happens in between — the two navigations are the
only steps). -/
theorem C5_cursor_persistence (st : NavState) (d : String)
    (hfocus : st.body.getD st.focus_position emptyNode = PassNode.mk (some d) true) :
    (dir_navigate (dir_navigate st NavDir.down) NavDir.up).root = st.root ∧
    (dir_navigate (dir_navigate st NavDir.down) NavDir.up).focus_position
      = st.focus_position := by
  have hroot_ne : ¬(st.root = st.root ++ [d]) := by
    intro h
    have := congrArg List.length h
    simp at this
  unfold dir_navigate updatePos
  simp only [hfocus]
  simp [hroot_ne]

theorem C5_cursor_persistence_witness :
    (dir_navigate (dir_navigate navFixture NavDir.down) NavDir.up).root = navFixture.root ∧
    (dir_navigate (dir_navigate navFixture NavDir.down) NavDir.up).focus_position
      = navFixture.focus_position :=
  C5_cursor_persistence navFixture "b" (by decide)

/-! ## External-operation failure leaves the state unchanged (C6) -/

/-- Claim C6 (amended: the surfaced alert text is the error text with
newlines replaced by spaces — `UI.message` flattens the message to one
line): when the external store call reports failure (non-zero return
code), `UI.run_pass` (the path taken by insert, generate and edit) and
a confirmed `UI.delete_confirm` leave the directory cache untouched at
every path (in particular the current collection's length is
unchanged), leave focus and viewport unchanged, and show the flattened
error text as an alert message. -/
theorem C6_failure_no_mutation (st : UIState) (op : PassOp) (node msg : String)
    (pw : Option String) (key : String) (res : PassResult)
    (hfail : res.returncode ≠ 0) (hkey : key = "y" ∨ key = "Y" ∨ key = "enter") :
    ((UI.run_pass st op node msg pw res).allPass = st.allPass ∧
     (UI.run_pass st op node msg pw res).focus_position = st.focus_position ∧
     (UI.run_pass st op node msg pw res).offset_inset = st.offset_inset ∧
     (UI.run_pass st op node msg pw res).message = flattenNL res.stderr ∧
     (UI.run_pass st op node msg pw res).alert = true) ∧
    ((UI.delete_confirm st key res).allPass = st.allPass ∧
     ((UI.delete_confirm st key res).allPass st.root).nodes.length
       = (st.allPass st.root).nodes.length ∧
     (UI.delete_confirm st key res).focus_position = st.focus_position ∧
     (UI.delete_confirm st key res).offset_inset = st.offset_inset ∧
     (UI.delete_confirm st key res).message = flattenNL res.stderr ∧
     (UI.delete_confirm st key res).alert = true) := by
  constructor
  · unfold UI.run_pass UI.message
    simp [hfail]
  · unfold UI.delete_confirm UI.message
    rcases hkey with rfl | rfl | rfl <;> simp [hfail]

theorem C6_failure_no_mutation_witness :
    ((UI.run_pass uiFixture PassOp.delete "a" "m" none (PassResult.mk 1 "" "boom")).allPass
       = uiFixture.allPass ∧
     (UI.run_pass uiFixture PassOp.delete "a" "m" none (PassResult.mk 1 "" "boom")).focus_position
       = uiFixture.focus_position ∧
     (UI.run_pass uiFixture PassOp.delete "a" "m" none (PassResult.mk 1 "" "boom")).offset_inset
       = uiFixture.offset_inset ∧
     (UI.run_pass uiFixture PassOp.delete "a" "m" none (PassResult.mk 1 "" "boom")).message
       = flattenNL "boom" ∧
     (UI.run_pass uiFixture PassOp.delete "a" "m" none (PassResult.mk 1 "" "boom")).alert = true) ∧
    ((UI.delete_confirm uiFixture "y" (PassResult.mk 1 "" "boom")).allPass = uiFixture.allPass ∧
     ((UI.delete_confirm uiFixture "y" (PassResult.mk 1 "" "boom")).allPass uiFixture.root).nodes.length
       = (uiFixture.allPass uiFixture.root).nodes.length ∧
     (UI.delete_confirm uiFixture "y" (PassResult.mk 1 "" "boom")).focus_position
       = uiFixture.focus_position ∧
     (UI.delete_confirm uiFixture "y" (PassResult.mk 1 "" "boom")).offset_inset
       = uiFixture.offset_inset ∧
     (UI.delete_confirm uiFixture "y" (PassResult.mk 1 "" "boom")).message = flattenNL "boom" ∧
     (UI.delete_confirm uiFixture "y" (PassResult.mk 1 "" "boom")).alert = true) :=
  C6_failure_no_mutation uiFixture PassOp.delete "a" "m" none "y" (PassResult.mk 1 "" "boom")
    (by decide) (Or.inl rfl)

/-- Counterexample to C6 as frozen: the claim says the alert message
equals the reported error text, but `UI.message` replaces newlines
with spaces, so a two-line error `"a\nb"` is surfaced as `"a b"`. -/
theorem C6_counterexample :
    (UI.run_pass uiFixture PassOp.delete "x" "m" none (PassResult.mk 1 "" "a\nb")).message
      ≠ "a\nb" := by
  decide

/-! ## Insert modal sequence (C7) -/

/-- Claim C7: completing the insert modal sequence with name `n`,
password `p` and confirmation `q`: if `q = p`, exactly one external
insert invocation with arguments `(n, p)` is logged and the modal
session is reset to none; if `q ≠ p`, no external invocation is
logged, the mismatch alert is shown, and the session is reset to
none. -/
theorem C7_insert_modal_sequence (st : UIState) (n p q : String) (res : PassResult) :
    (q = p →
      (UI.insertSequence st n p q res).calls
        = st.calls ++ [CoordCall.mk PassOp.insert n (some p)] ∧
      (UI.insertSequence st n p q res).editType = none) ∧
    (q ≠ p →
      (UI.insertSequence st n p q res).calls = st.calls ∧
      (UI.insertSequence st n p q res).editType = none ∧
      (UI.insertSequence st n p q res).message = flattenNL "Password is not the same" ∧
      (UI.insertSequence st n p q res).alert = true) := by
  constructor
  · rintro rfl
    unfold UI.insertSequence UI.handle_input UI.set_edit_text UI.focus_edit
      UI.unfocus_edit UI.run_pass PassList.insertUI UI.update_view UI.message
    by_cases hr : res.returncode = 0 <;> simp [hr]
  · intro hqp
    have hne : ¬(some p = some q) := by
      intro h
      exact hqp (Option.some.inj h).symm
    unfold UI.insertSequence UI.handle_input UI.set_edit_text UI.focus_edit
      UI.unfocus_edit UI.message
    simp [hne]

theorem C7_insert_modal_sequence_witness :
    ((UI.insertSequence uiFixture "site" "xyz" "xyz" (PassResult.mk 0 "" "")).calls
       = uiFixture.calls ++ [CoordCall.mk PassOp.insert "site" (some "xyz")] ∧
     (UI.insertSequence uiFixture "site" "xyz" "xyz" (PassResult.mk 0 "" "")).editType
       = none) ∧
    ((UI.insertSequence uiFixture "site" "xyz" "abc" (PassResult.mk 0 "" "")).calls
       = uiFixture.calls ∧
     (UI.insertSequence uiFixture "site" "xyz" "abc" (PassResult.mk 0 "" "")).editType
       = none ∧
     (UI.insertSequence uiFixture "site" "xyz" "abc" (PassResult.mk 0 "" "")).message
       = flattenNL "Password is not the same" ∧
     (UI.insertSequence uiFixture "site" "xyz" "abc" (PassResult.mk 0 "" "")).alert = true) :=
  ⟨(C7_insert_modal_sequence uiFixture "site" "xyz" "xyz" (PassResult.mk 0 "" "")).1 rfl,
   (C7_insert_modal_sequence uiFixture "site" "xyz" "abc" (PassResult.mk 0 "" "")).2
     (by decide)⟩

/-! ## Edit is cache-neutral (C8) -/

/-- The membership branch of `insert_sorted` as an equation. -/
theorem insert_sorted_of_mem (fw : FolderWalker) (n : PassNode)
    (h : n.node ∈ fw.nodes.map (·.node)) :
    fw.insert_sorted n = (fw, (fw.nodes.map (·.node)).indexOf n.node) := by
  unfold FolderWalker.insert_sorted
  simp only [h, if_pos]

/-- Claim C8: a successful external edit of a focused real leaf node
leaves every cached directory collection unchanged (same length, same
order, no duplicate: the success-path re-insert finds the existing
name and is the identity) and forces a preview refresh. -/
theorem C8_edit_frame (st : UIState) (res : PassResult) (s : String)
    (hfocus : (st.allPass st.root).nodes.getD st.focus_position emptyNode
      = PassNode.mk (some s) false)
    (hsucc : res.returncode = 0) :
    (∀ p2, (UI.keypress_edit st res).allPass p2 = st.allPass p2) ∧
    (UI.keypress_edit st res).previewForced = true := by
  have hq : (st.allPass st.root).nodes[st.focus_position]?
      = some (PassNode.mk (some s) false) := by
    rcases ha : (st.allPass st.root).nodes[st.focus_position]? with _ | x
    · rw [List.getD_eq_getElem?_getD, ha] at hfocus
      exact absurd (congrArg PassNode.node hfocus) (by simp [emptyNode])
    · rw [List.getD_eq_getElem?_getD, ha] at hfocus
      simpa using hfocus
  have hmem : PassNode.mk (some s) false ∈ (st.allPass st.root).nodes :=
    List.getElem?_mem hq
  have hname : (some s) ∈ (st.allPass st.root).nodes.map (·.node) :=
    List.mem_map.2 ⟨_, hmem, rfl⟩
  have hcond : ¬((st.allPass st.root).nodes.length = 1 ∧
      ((st.allPass st.root).nodes.headD emptyNode).node = none) := by
    rintro ⟨hlen, hhead⟩
    obtain ⟨x, hx⟩ := List.length_eq_one.1 hlen
    rw [hx] at hmem hhead
    rcases List.mem_singleton.1 hmem with rfl
    simp at hhead
  have hstore : PassList.insertStore (st.allPass st.root) s
      = (st.allPass st.root, ((st.allPass st.root).nodes.map (·.node)).indexOf (some s)) := by
    unfold PassList.insertStore
    rw [if_neg hcond]
    exact insert_sorted_of_mem _ _ hname
  unfold UI.keypress_edit
  simp only [hfocus]
  rw [if_neg (by simp)]
  unfold UI.run_pass
  rw [if_pos hsucc]
  unfold PassList.insertUI UI.update_view UI.message
  dsimp only [Option.getD_some]
  rw [hstore]
  constructor
  · intro p2
    by_cases hp : p2 = st.root <;> simp [hp]
  · rfl

theorem C8_edit_frame_witness :
    (∀ p2, (UI.keypress_edit { uiFixture with focus_position := 1 }
        (PassResult.mk 0 "" "")).allPass p2
      = ({ uiFixture with focus_position := 1 } : UIState).allPass p2) ∧
    (UI.keypress_edit { uiFixture with focus_position := 1 }
      (PassResult.mk 0 "" "")).previewForced = true :=
  C8_edit_frame { uiFixture with focus_position := 1 } (PassResult.mk 0 "" "") "a"
    (by decide) rfl

/-! ## Pending modal fields at session end (C9) -/

/-- Claim C9 (amended: ending a session resets the mode to `none` — and
`unfocus_edit` clears message and input mask — but the pending name
and pending password fields are *not* cleared; they keep their last
values and are only overwritten by a later session): this holds for
cancel (`unfocus_edit`) and for both outcomes of the confirmation step
(success and mismatch). -/
theorem C9_pending_fields (st : UIState) (res : PassResult) :
    ((UI.unfocus_edit st).editType = none ∧
     (UI.unfocus_edit st).insertNode = st.insertNode ∧
     (UI.unfocus_edit st).insertPass = st.insertPass) ∧
    (st.editType = some EditType.insertPasswordConfirm →
      (UI.handle_input st res).editType = none ∧
      (UI.handle_input st res).insertNode = st.insertNode ∧
      (UI.handle_input st res).insertPass = st.insertPass) := by
  refine ⟨⟨rfl, rfl, rfl⟩, ?_⟩
  intro h
  unfold UI.handle_input UI.unfocus_edit UI.run_pass PassList.insertUI
    UI.update_view UI.message
  rw [h]
  dsimp only
  split
  · split <;> simp
  · simp

theorem C9_pending_fields_witness :
    ((UI.unfocus_edit uiFixtureConfirm).editType = none ∧
     (UI.unfocus_edit uiFixtureConfirm).insertNode = some "site" ∧
     (UI.unfocus_edit uiFixtureConfirm).insertPass = some "xyz") ∧
    ((UI.handle_input uiFixtureConfirm (PassResult.mk 0 "" "")).editType = none ∧
     (UI.handle_input uiFixtureConfirm (PassResult.mk 0 "" "")).insertNode = some "site" ∧
     (UI.handle_input uiFixtureConfirm (PassResult.mk 0 "" "")).insertPass = some "xyz") :=
  ⟨(C9_pending_fields uiFixtureConfirm (PassResult.mk 0 "" "")).1,
   (C9_pending_fields uiFixtureConfirm (PassResult.mk 0 "" "")).2 rfl⟩

/-- Counterexample to C9 as frozen: a cancelled session leaves the
pending password in place — `unfocus_edit` does not clear the
`_insert_pass` attribute. -/
theorem C9_counterexample :
    (UI.unfocus_edit uiFixtureConfirm).insertPass ≠ none := by
  decide

/-! ## Footer item counter (C10) -/

/-- Claim C10 (amended: the counter is "0/0" whenever the focused node's
name is falsy — absent (the empty sentinel) or the empty string — and
"(focusPosition+1)/(length)" whenever the name is a non-empty string;
the source tests Python truthiness of the name, not sentinel-hood). -/
theorem C10_footer_counter (st : UIState) :
    (((st.allPass st.root).nodes.getD st.focus_position emptyNode).node = none →
      (UI.update_view st).countText = "0/0") ∧
    (((st.allPass st.root).nodes.getD st.focus_position emptyNode).node = some "" →
      (UI.update_view st).countText = "0/0") ∧
    (∀ s, s ≠ "" →
      ((st.allPass st.root).nodes.getD st.focus_position emptyNode).node = some s →
      (UI.update_view st).countText
        = toString (st.focus_position + 1) ++ "/" ++
          toString (st.allPass st.root).nodes.length) := by
  refine ⟨?_, ?_, ?_⟩
  · intro h
    unfold UI.update_view
    rw [List.getD_eq_getElem?_getD] at h
    simp [pyTruthy, h]
  · intro h
    unfold UI.update_view
    rw [List.getD_eq_getElem?_getD] at h
    simp [pyTruthy, h]
  · intro s hs h
    unfold UI.update_view
    rw [List.getD_eq_getElem?_getD] at h
    simp [pyTruthy, h, hs]

theorem C10_footer_counter_witness :
    (UI.update_view uiFixtureSentinel).countText = "0/0" ∧
    (UI.update_view uiFixtureEmptyName).countText = "0/0" ∧
    (UI.update_view uiFixture).countText
      = toString (uiFixture.focus_position + 1) ++ "/" ++
        toString (uiFixture.allPass uiFixture.root).nodes.length :=
  ⟨(C10_footer_counter uiFixtureSentinel).1 (by decide),
   (C10_footer_counter uiFixtureEmptyName).2.1 (by decide),
   (C10_footer_counter uiFixture).2.2 "b" (by decide) (by decide)⟩

/-- Counterexample to C10 as frozen: a focused node whose name is the
empty string (producible from a stored file named exactly ".gpg",
whose leaf name after suffix-stripping is "") is not the empty
sentinel, yet the counter shows "0/0" instead of
"(focusPosition+1)/(length)" = "1/2". -/
theorem C10_counterexample :
    (UI.update_view uiFixtureEmptyName).countText ≠ "1/2" := by
  decide
